import Mathlib

/-!
Shallow embedding of the egress-proxy rotation pool implemented in
`src/web_assistant/core/network_manager.py` (class `ProxyManager`).

Modelling conventions:
* `time.time()` is replaced by an explicit `now : ℤ` argument threaded into
  every operation that reads the clock.
* `random.choice(lst)` is replaced by an explicit `pick : Nat` argument; the
  chosen element is `lst[pick % len(lst)]`, so every possible uniform draw is
  a concrete instantiation of `pick`.
* The Python `dict` (insertion ordered) becomes an association list with
  unique keys; insertion replaces in place, otherwise appends.
* A raised exception becomes `Except.error msg` carrying the exact message
  string from the source.
* In-place mutation of `self` becomes returning the updated `ProxyManager`.
-/

/-- Embeds the `RotationStrategy` enum. -/
inductive RotationStrategy where
  | random
  | round_robin
  | percentage_active
  | rest_ready
  | sticky_session
  | custom_rules
deriving DecidableEq, Repr

/-- Embeds the `ProxyStats` dataclass (`domain_rules` is the per-proxy dict
`domain → allow`). -/
structure ProxyStats where
  success_count : Nat := 0
  failure_count : Nat := 0
  ban_count : Nat := 0
  last_used : ℤ := 0
  rest_until : ℤ := 0
  active_percentage : ℚ := 0
  domain_rules : List (String × Bool) := []
deriving DecidableEq, Repr

/-- `ProxyStats.total_requests` property. -/
def ProxyStats.total_requests (s : ProxyStats) : Nat :=
  s.success_count + s.failure_count

/-- `ProxyStats.success_rate` property. -/
def ProxyStats.success_rate (s : ProxyStats) : ℚ :=
  if s.total_requests = 0 then 0
  else (s.success_count : ℚ) / (s.total_requests : ℚ)

/-- One value of the `self.proxies` dict: the connection spec
(`proxy_dict`, itself a string-keyed dict), the lifecycle `state` string and
the `stats` record. -/
structure ProxyData where
  proxy_dict : List (String × String)
  state : String
  stats : ProxyStats
deriving DecidableEq, Repr

/-- Association-list lookup, the semantics of `d[k]` / `d.get(k)` on a
Python dict with unique keys. -/
def lookup {α : Type} (ps : List (String × α)) (k : String) : Option α :=
  (ps.find? (fun p => p.1 == k)).map (fun p => p.2)

/-- `k in d` on a Python dict. -/
def containsKey {α : Type} (ps : List (String × α)) (k : String) : Bool :=
  (lookup ps k).isSome

/-- `d[k] = v` on a Python dict: replaces in place when the key exists,
appends otherwise (insertion order preserved). -/
def dictInsert {α : Type} (ps : List (String × α)) (k : String) (v : α) :
    List (String × α) :=
  if containsKey ps k then
    ps.map (fun p => if p.1 == k then (k, v) else p)
  else ps ++ [(k, v)]

/-- `d.update(other)` on a Python dict. -/
def dictUpdate {α : Type} (ps other : List (String × α)) : List (String × α) :=
  other.foldl (fun acc p => dictInsert acc p.1 p.2) ps

/-- Applies `f` to the value stored at `k` (in-place mutation of
`self.proxies[k]`); identity when `k` is absent. -/
def updateProxy (ps : List (String × ProxyData)) (k : String)
    (f : ProxyData → ProxyData) : List (String × ProxyData) :=
  ps.map (fun p => if p.1 == k then (p.1, f p.2) else p)

/-- Embeds the `ProxyManager` state: `self.proxies`, `self.strategy`,
`self.current_index`, `self.domain_sticky_proxies` (the lock is dropped:
every public operation below is one atomic function). -/
structure ProxyManager where
  proxies : List (String × ProxyData)
  strategy : RotationStrategy
  current_index : Nat
  domain_sticky_proxies : List (String × String)
deriving DecidableEq, Repr

/-- `ProxyManager.__init__`: builds the proxies dict keyed by
`proxy['http']`, each entry starting `state = "active"` with fresh stats. -/
def ProxyManager.init (proxies_list : List (List (String × String)))
    (strategy : RotationStrategy) : ProxyManager :=
  { proxies := proxies_list.foldl
      (fun acc proxy =>
        dictInsert acc ((lookup proxy "http").getD "")
          { proxy_dict := proxy, state := "active", stats := {} })
      []
    strategy := strategy
    current_index := 0
    domain_sticky_proxies := [] }

/-- The eligibility test used by every selector filter:
`data['state'] == 'active' and now >= data['stats'].rest_until`. -/
def isEligibleData (d : ProxyData) (now : ℤ) : Bool :=
  d.state == "active" && decide (d.stats.rest_until ≤ now)

/-- The `active_proxies` list comprehension shared by the selectors. -/
def activeProxies (m : ProxyManager) (now : ℤ) : List (String × ProxyData) :=
  m.proxies.filter (fun p => isEligibleData p.2 now)

/-- `random.choice` on a non-empty list, driven by the `pick` parameter. -/
def pychoice {α : Type} (x : α) (xs : List α) (pick : Nat) : α :=
  (x :: xs).get ⟨pick % (x :: xs).length, Nat.mod_lt pick (Nat.succ_pos xs.length)⟩

/-- Python `min(lst, key)` (first minimum wins on ties). -/
def pyMin {α β : Type} [LinearOrder β] (key : α → β) (x : α) (xs : List α) : α :=
  xs.foldl (fun b a => if key a < key b then a else b) x

/-- Python `max(lst, key)` (first maximum wins on ties). -/
def pyMax {α β : Type} [LinearOrder β] (key : α → β) (x : α) (xs : List α) : α :=
  xs.foldl (fun b a => if key b < key a then a else b) x

/-- A `(connectionSpec, identifier)` selection result. -/
abbrev ProxyResult := List (String × String) × String

instance {ε α : Type} [DecidableEq ε] [DecidableEq α] : DecidableEq (Except ε α)
  | .error e, .error e' =>
    if h : e = e' then isTrue (by rw [h])
    else isFalse (fun hh => h (Except.error.inj hh))
  | .error _, .ok _ => isFalse (fun hh => Except.noConfusion hh)
  | .ok _, .error _ => isFalse (fun hh => Except.noConfusion hh)
  | .ok a, .ok b =>
    if h : a = b then isTrue (by rw [h])
    else isFalse (fun hh => h (Except.ok.inj hh))

/-- `ProxyManager._get_random_proxy`. -/
def ProxyManager.get_random_proxy (m : ProxyManager) (now : ℤ) (pick : Nat) :
    Except String ProxyResult :=
  match activeProxies m now with
  | [] => .error "No active proxies available"
  | x :: xs =>
    let chosen := pychoice x xs pick
    .ok (chosen.2.proxy_dict, chosen.1)

/-- `ProxyManager._get_round_robin_proxy`; also returns the manager with the
advanced `current_index`. -/
def ProxyManager.get_round_robin_proxy (m : ProxyManager) (now : ℤ) :
    Except String (ProxyResult × ProxyManager) :=
  match activeProxies m now with
  | [] => .error "No active proxies available"
  | x :: xs =>
    let idx := (m.current_index + 1) % (x :: xs).length
    let chosen := (x :: xs).get ⟨idx, Nat.mod_lt _ (Nat.succ_pos xs.length)⟩
    .ok ((chosen.2.proxy_dict, chosen.1), { m with current_index := idx })

/-- The `key` lambda of `_get_percentage_based_proxy`:
`(total_requests / total if total > 0 else 0) - active_percentage`. -/
def pctKey (total : Nat) (p : String × ProxyData) : ℚ :=
  (if total > 0 then (p.2.stats.total_requests : ℚ) / (total : ℚ) else 0)
    - p.2.stats.active_percentage

/-- `ProxyManager._get_percentage_based_proxy`. -/
def ProxyManager.get_percentage_based_proxy (m : ProxyManager) (now : ℤ)
    (pick : Nat) : Except String ProxyResult :=
  match activeProxies m now with
  | [] => .error "No available proxies"
  | x :: xs =>
    let total := ((x :: xs).map (fun p => p.2.stats.total_requests)).sum
    if total = 0 then m.get_random_proxy now pick
    else
      let best := pyMin (pctKey total) x xs
      .ok (best.2.proxy_dict, best.1)

/-- `ProxyManager._get_rested_proxy`. -/
def ProxyManager.get_rested_proxy (m : ProxyManager) (now : ℤ) :
    Except String ProxyResult :=
  match activeProxies m now with
  | [] => .error "No rested proxies available"
  | x :: xs =>
    let best := pyMax (fun p => now - p.2.stats.last_used) x xs
    .ok (best.2.proxy_dict, best.1)

/-- `ProxyManager._get_sticky_proxy`; returns the manager with the possibly
rewritten sticky map.  A mapped identifier missing from `self.proxies` would
raise `KeyError` in the source. -/
def ProxyManager.get_sticky_proxy (m : ProxyManager) (now : ℤ) (pick : Nat)
    (domain : String) : Except String (ProxyResult × ProxyManager) :=
  let assignNew : Except String (ProxyResult × ProxyManager) :=
    (m.get_random_proxy now pick).map (fun r =>
      (r, { m with domain_sticky_proxies :=
              dictInsert m.domain_sticky_proxies domain r.2 }))
  match lookup m.domain_sticky_proxies domain with
  | some proxy_url =>
    match lookup m.proxies proxy_url with
    | none => .error "KeyError"
    | some data =>
      if data.state == "active" then .ok ((data.proxy_dict, proxy_url), m)
      else assignNew
  | none => assignNew

/-- `ProxyManager._get_custom_rule_proxy`. -/
def ProxyManager.get_custom_rule_proxy (m : ProxyManager) (now : ℤ)
    (pick : Nat) (domain : String) : Except String ProxyResult :=
  let matching := m.proxies.filter (fun p =>
    p.2.state == "active" &&
    (lookup p.2.stats.domain_rules domain).getD true &&
    decide (p.2.stats.rest_until ≤ now))
  match matching with
  | [] => m.get_random_proxy now pick
  | x :: xs =>
    let chosen := pychoice x xs pick
    .ok (chosen.2.proxy_dict, chosen.1)

/-- Python truthiness of the `domain: Optional[str]` argument
(`None` and `""` are falsy). -/
def truthy : Option String → Bool
  | none => false
  | some s => !(s == "")

/-- `ProxyManager.get_proxy`: the strategy dispatch (the trailing
`return self._get_random_proxy()` fallback catches a sticky/custom strategy
called with a falsy domain). -/
def ProxyManager.get_proxy (m : ProxyManager) (now : ℤ) (pick : Nat)
    (domain : Option String) : Except String (ProxyResult × ProxyManager) :=
  match m.strategy with
  | .random => (m.get_random_proxy now pick).map (fun r => (r, m))
  | .round_robin => m.get_round_robin_proxy now
  | .percentage_active => (m.get_percentage_based_proxy now pick).map (fun r => (r, m))
  | .rest_ready => (m.get_rested_proxy now).map (fun r => (r, m))
  | .sticky_session =>
    if truthy domain then m.get_sticky_proxy now pick (domain.getD "")
    else (m.get_random_proxy now pick).map (fun r => (r, m))
  | .custom_rules =>
    if truthy domain then
      (m.get_custom_rule_proxy now pick (domain.getD "")).map (fun r => (r, m))
    else (m.get_random_proxy now pick).map (fun r => (r, m))

/-- `ProxyManager.set_strategy`. -/
def ProxyManager.set_strategy (m : ProxyManager) (strategy : RotationStrategy) :
    ProxyManager :=
  { m with strategy := strategy }

/-- `ProxyManager.configure_proxy`: the three recognised kwargs, applied in
source order; `rest_time` sets `rest_until := now + rest_time` immediately. -/
def ProxyManager.configure_proxy (m : ProxyManager) (proxy_url : String)
    (active_percentage : Option ℚ) (domain_rules : Option (List (String × Bool)))
    (rest_time : Option ℤ) (now : ℤ) : ProxyManager :=
  if containsKey m.proxies proxy_url then
    let m := match active_percentage with
      | some ap =>
        let f := fun d : ProxyData =>
          { d with stats := { d.stats with active_percentage := ap } }
        { m with proxies := updateProxy m.proxies proxy_url f }
      | none => m
    let m := match domain_rules with
      | some dr =>
        let f := fun d : ProxyData =>
          { d with stats :=
            { d.stats with domain_rules := dictUpdate d.stats.domain_rules dr } }
        { m with proxies := updateProxy m.proxies proxy_url f }
      | none => m
    match rest_time with
      | some rt =>
        let f := fun d : ProxyData =>
          { d with stats := { d.stats with rest_until := now + rt } }
        { m with proxies := updateProxy m.proxies proxy_url f }
      | none => m
  else m

/-- `ProxyManager.report_success` (an unknown identifier falls through the
`if proxy_url in self.proxies` guard and changes nothing). -/
def ProxyManager.report_success (m : ProxyManager) (proxy_url : String)
    (now : ℤ) : ProxyManager :=
  if containsKey m.proxies proxy_url then
    let f := fun d : ProxyData =>
      { d with stats := { d.stats with
          success_count := d.stats.success_count + 1
          last_used := now } }
    { m with proxies := updateProxy m.proxies proxy_url f }
  else m

/-- `ProxyManager.report_failure` (the ban rest window is the literal
`time.time() + 300` from the source). -/
def ProxyManager.report_failure (m : ProxyManager) (proxy_url : String)
    (is_ban : Bool) (now : ℤ) : ProxyManager :=
  if containsKey m.proxies proxy_url then
    let f := fun d : ProxyData =>
      let s := { d.stats with failure_count := d.stats.failure_count + 1 }
      let s := if is_ban then
          { s with ban_count := s.ban_count + 1, rest_until := now + 300 }
        else s
      { d with stats := { s with last_used := now } }
    { m with proxies := updateProxy m.proxies proxy_url f }
  else m

/-- One row of `ProxyManager.get_stats`. -/
structure StatsRow where
  success_rate : ℚ
  total_requests : Nat
  bans : Nat
  state : String
  last_used : ℤ
deriving DecidableEq, Repr

/-- `ProxyManager.get_stats`: the read-only snapshot. -/
def ProxyManager.get_stats (m : ProxyManager) : List (String × StatsRow) :=
  m.proxies.map (fun p =>
    (p.1, { success_rate := p.2.stats.success_rate
            total_requests := p.2.stats.total_requests
            bans := p.2.stats.ban_count
            state := p.2.state
            last_used := p.2.stats.last_used }))

/-- `n` sequential `get_proxy` calls (same clock and draw each time),
collecting the returned identifiers and threading the manager state. -/
def getProxySeq (now : ℤ) (pick : Nat) (domain : Option String) :
    Nat → ProxyManager → Except String (List String × ProxyManager)
  | 0, m => .ok ([], m)
  | n + 1, m =>
    match m.get_proxy now pick domain with
    | .error e => .error e
    | .ok (r, m') =>
      match getProxySeq now pick domain n m' with
      | .error e => .error e
      | .ok (ids, m'') => .ok (r.2 :: ids, m'')

/-- Repeated `report_failure(url, is_ban=False)` at the listed clock
readings. -/
def reportFailures (m : ProxyManager) (url : String) (ts : List ℤ) :
    ProxyManager :=
  ts.foldl (fun acc t => acc.report_failure url false t) m

/-! Concrete fixtures used by the scenario claims. -/

/-- Connection spec whose `http` entry (the identifier) is the given name. -/
def spec1 (name : String) : List (String × String) := [("http", name)]

/-- Pool built from the ordered list `[A, B, C]`. -/
def poolABC (strategy : RotationStrategy) : ProxyManager :=
  ProxyManager.init [spec1 "A", spec1 "B", spec1 "C"] strategy

/-- A freshly constructed entry for the one-key connection spec. -/
def entry1 (name : String) : ProxyData :=
  { proxy_dict := spec1 name, state := "active", stats := {} }

/-- Pool `[A]` after a ban on `A` at time 0 (`rest_until = 300`). -/
def mC6 : ProxyManager := (poolABC .random).report_failure "A" true 0

/-- Sticky pool `[A, B]` whose first sticky call (time 0, draw 0) pinned
domain `"d"` to `A`, after which `A` was banned at time 0. -/
def mC3 : ProxyManager :=
  match (ProxyManager.init [spec1 "A", spec1 "B"] .sticky_session).get_proxy
      0 0 (some "d") with
  | .ok (_, m) => m.report_failure "A" true 0
  | .error _ => ProxyManager.init [] .random

/-- Sticky pool `[A]` whose first sticky call pinned domain `"d"` to `A`,
after which `A` was banned at time 0: at time 100 the eligible set is
empty. -/
def mC5 : ProxyManager :=
  match (ProxyManager.init [spec1 "A"] .sticky_session).get_proxy
      0 0 (some "d") with
  | .ok (_, m) => m.report_failure "A" true 0
  | .error _ => ProxyManager.init [] .random

/-- Percentage pool built in insertion order `[B, A]`, one success reported
on each entry, so both observed shares (and both selection keys) tie. -/
def mC7 : ProxyManager :=
  ((ProxyManager.init [spec1 "B", spec1 "A"] .percentage_active).report_success
    "B" 0).report_success "A" 0

/-- The first eligible entry of `mC7` (identifier `B`, one success). -/
def entryB1 : ProxyData := ⟨spec1 "B", "active", ⟨1, 0, 0, 0, 0, 0, []⟩⟩

/-- The second eligible entry of `mC7` (identifier `A`, one success). -/
def entryA1 : ProxyData := ⟨spec1 "A", "active", ⟨1, 0, 0, 0, 0, 0, []⟩⟩

/-- `True` when the sticky map sends `d` to an identifier whose entry exists
and has `state == "active"`: exactly the condition under which
`_get_sticky_proxy` returns the mapped entry without consulting the eligible
set. -/
def stickyActiveHit (m : ProxyManager) (d : String) : Bool :=
  match lookup m.domain_sticky_proxies d with
  | some url =>
    match lookup m.proxies url with
    | some data => data.state == "active"
    | none => false
  | none => false

/-- Every entry's lifecycle state is the string `"active"`. -/
def allActive (m : ProxyManager) : Prop :=
  ∀ p ∈ m.proxies, p.2.state = "active"

/-! ## Helper lemmas -/

theorem lookup_updateProxy_self (ps : List (String × ProxyData)) (k : String)
    (f : ProxyData → ProxyData) :
    lookup (updateProxy ps k f) k = (lookup ps k).map f := by
  induction ps with
  | nil => rfl
  | cons p t ih =>
    by_cases h : p.1 = k
    · subst h
      simp [lookup, updateProxy, List.find?]
    · have hb : (p.1 == k) = false := by simp [h]
      simp only [updateProxy, List.map_cons, hb, if_neg, lookup, List.find?,
        Bool.false_eq_true, cond_false] at ih ⊢
      simpa [hb] using ih

theorem lookup_updateProxy_ne (ps : List (String × ProxyData)) (k k' : String)
    (f : ProxyData → ProxyData) (h : k' ≠ k) :
    lookup (updateProxy ps k f) k' = lookup ps k' := by
  induction ps with
  | nil => rfl
  | cons p t ih =>
    by_cases hp : p.1 = k
    · subst hp
      have hb : (p.1 == k') = false := by
        simp only [beq_eq_false_iff_ne, ne_eq]
        exact fun hh => h hh.symm
      simp [lookup, updateProxy, List.find?, hb] at ih ⊢
      exact ih
    · have hb : (p.1 == k) = false := by simp [hp]
      by_cases hq : p.1 = k'
      · subst hq
        simp [lookup, updateProxy, List.find?, hb]
      · have hb' : (p.1 == k') = false := by simp [hq]
        simp [lookup, updateProxy, List.find?, hb, hb'] at ih ⊢
        exact ih

theorem containsKey_cons_false {α : Type} {p : String × α}
    {t : List (String × α)} {k : String} (hb : (p.1 == k) = false) :
    containsKey (p :: t) k = containsKey t k := by
  simp [containsKey, lookup, List.find?, hb]

theorem lookup_map_replace {α : Type} (ps : List (String × α)) (k : String)
    (v : α) (hc : containsKey ps k = true) :
    lookup (ps.map (fun p => if p.1 == k then (k, v) else p)) k = some v := by
  induction ps with
  | nil => simp [containsKey, lookup] at hc
  | cons p t ih =>
    by_cases h : p.1 = k
    · have hb : (p.1 == k) = true := by simp [h]
      simp [lookup, List.find?, hb]
    · have hb : (p.1 == k) = false := by simp [h]
      rw [containsKey_cons_false hb] at hc
      simp only [List.map_cons, hb, if_neg, Bool.false_eq_true, lookup,
        List.find?, cond_false] at ih ⊢
      simpa [hb] using ih hc

theorem lookup_append_single {α : Type} (ps : List (String × α)) (k : String)
    (v : α) : containsKey ps k = false → lookup (ps ++ [(k, v)]) k = some v := by
  induction ps with
  | nil => intro _; simp [lookup, List.find?]
  | cons p t ih =>
    intro hc
    have hb : (p.1 == k) = false := by
      by_contra hh
      simp only [Bool.not_eq_false] at hh
      simp [containsKey, lookup, List.find?, hh] at hc
    rw [containsKey_cons_false hb] at hc
    simp only [List.cons_append, lookup, List.find?, hb, cond_false] at ih ⊢
    exact ih hc

theorem lookup_dictInsert_self {α : Type} (ps : List (String × α))
    (k : String) (v : α) : lookup (dictInsert ps k v) k = some v := by
  unfold dictInsert
  split
  · rename_i hc
    exact lookup_map_replace ps k v hc
  · rename_i hc
    simp only [Bool.not_eq_true] at hc
    exact lookup_append_single ps k v hc

theorem containsKey_eq_true_of_lookup {α : Type} {ps : List (String × α)}
    {k : String} {v : α} (h : lookup ps k = some v) :
    containsKey ps k = true := by
  simp [containsKey, h]

/-- The `Except.map (fun r => (r, m))` wrapper in `get_proxy` succeeds only
by pairing an untouched manager with the selector's result. -/
theorem map_pair_ok {e : Except String ProxyResult} {m m' : ProxyManager}
    {r : ProxyResult}
    (h : e.map (fun r => (r, m)) = .ok (r, m')) : m' = m ∧ e = .ok r := by
  cases e with
  | error s => simp [Except.map] at h
  | ok v =>
    simp [Except.map] at h
    exact ⟨h.2.symm, by simp [h.1]⟩

theorem report_success_lookup_self {m : ProxyManager} {url : String}
    {data : ProxyData} (now : ℤ) (h : lookup m.proxies url = some data) :
    lookup (m.report_success url now).proxies url =
      some { data with stats := { data.stats with
        success_count := data.stats.success_count + 1
        last_used := now } } := by
  unfold ProxyManager.report_success
  rw [if_pos (containsKey_eq_true_of_lookup h)]
  simp [lookup_updateProxy_self, h]

theorem report_failure_false_lookup_self {m : ProxyManager} {url : String}
    {data : ProxyData} (now : ℤ) (h : lookup m.proxies url = some data) :
    lookup (m.report_failure url false now).proxies url =
      some { data with stats := { data.stats with
        failure_count := data.stats.failure_count + 1
        last_used := now } } := by
  unfold ProxyManager.report_failure
  rw [if_pos (containsKey_eq_true_of_lookup h)]
  simp [lookup_updateProxy_self, h]

theorem report_failure_true_lookup_self {m : ProxyManager} {url : String}
    {data : ProxyData} (now : ℤ) (h : lookup m.proxies url = some data) :
    lookup (m.report_failure url true now).proxies url =
      some { data with stats := { data.stats with
        failure_count := data.stats.failure_count + 1
        ban_count := data.stats.ban_count + 1
        rest_until := now + 300
        last_used := now } } := by
  unfold ProxyManager.report_failure
  rw [if_pos (containsKey_eq_true_of_lookup h)]
  simp [lookup_updateProxy_self, h]

theorem report_failure_lookup_ne {m : ProxyManager} {url url' : String}
    (b : Bool) (now : ℤ) (h : url' ≠ url) :
    lookup (m.report_failure url b now).proxies url' = lookup m.proxies url' := by
  unfold ProxyManager.report_failure
  split
  · dsimp only
    exact lookup_updateProxy_ne m.proxies url url' _ h
  · rfl

/-- `get_proxy` never touches the proxies table: a successful call returns a
manager whose `proxies` (hence every counter, timestamp and state) is the
caller's. -/
theorem get_proxy_frame {m m' : ProxyManager} {now : ℤ} {pick : Nat}
    {domain : Option String} {r : ProxyResult}
    (h : m.get_proxy now pick domain = .ok (r, m')) :
    m'.proxies = m.proxies := by
  cases hs : m.strategy <;>
    simp only [ProxyManager.get_proxy, hs] at h
  case random =>
    obtain ⟨rfl, -⟩ := map_pair_ok h
    rfl
  case round_robin =>
    unfold ProxyManager.get_round_robin_proxy at h
    cases hA : activeProxies m now <;> simp only [hA] at h
    · simp at h
    · simp only [Except.ok.injEq, Prod.mk.injEq] at h
      obtain ⟨-, rfl⟩ := h
      rfl
  case percentage_active =>
    obtain ⟨rfl, -⟩ := map_pair_ok h
    rfl
  case rest_ready =>
    obtain ⟨rfl, -⟩ := map_pair_ok h
    rfl
  case sticky_session =>
    by_cases ht : truthy domain = true
    · rw [if_pos ht] at h
      unfold ProxyManager.get_sticky_proxy at h
      cases hmap : lookup m.domain_sticky_proxies (domain.getD "") <;>
        simp only [hmap] at h
      · cases hr : m.get_random_proxy now pick <;>
          simp only [hr, Except.map] at h
        · exact absurd h (by simp)
        · simp only [Except.ok.injEq, Prod.mk.injEq] at h
          obtain ⟨-, rfl⟩ := h
          rfl
      · rename_i url
        cases hd : lookup m.proxies url <;> simp only [hd] at h
        · simp at h
        · rename_i data
          by_cases hst : (data.state == "active") = true
          · rw [if_pos hst] at h
            simp only [Except.ok.injEq, Prod.mk.injEq] at h
            obtain ⟨-, rfl⟩ := h
            rfl
          · rw [if_neg hst] at h
            cases hr : m.get_random_proxy now pick <;>
              simp only [hr, Except.map] at h
            · exact absurd h (by simp)
            · simp only [Except.ok.injEq, Prod.mk.injEq] at h
              obtain ⟨-, rfl⟩ := h
              rfl
    · rw [if_neg ht] at h
      obtain ⟨rfl, -⟩ := map_pair_ok h
      rfl
  case custom_rules =>
    by_cases ht : truthy domain = true
    · rw [if_pos ht] at h
      obtain ⟨rfl, -⟩ := map_pair_ok h
      rfl
    · rw [if_neg ht] at h
      obtain ⟨rfl, -⟩ := map_pair_ok h
      rfl

/-- The running minimum of Python `min(key=...)` attains a value no larger
than every list element's. -/
theorem pyMin_le {α β : Type} [LinearOrder β] (key : α → β) (x : α) (xs : List α) :
    ∀ y ∈ x :: xs, key (pyMin key x xs) ≤ key y := by
  induction xs generalizing x with
  | nil =>
    intro y hy
    simp only [List.mem_singleton] at hy
    subst hy
    exact le_refl _
  | cons a t ih =>
    intro y hy
    have hstep : pyMin key x (a :: t) = pyMin key (if key a < key x then a else x) t := rfl
    rw [hstep]
    have hle_x : key (if key a < key x then a else x) ≤ key x := by
      split
      · exact le_of_lt (by assumption)
      · exact le_refl _
    have hle_a : key (if key a < key x then a else x) ≤ key a := by
      split
      · exact le_refl _
      · exact le_of_not_lt (by assumption)
    have hself : key (pyMin key (if key a < key x then a else x) t) ≤
        key (if key a < key x then a else x) :=
      ih _ _ (List.mem_cons_self _ _)
    rcases List.mem_cons.mp hy with hyx | hy'
    · subst hyx
      exact le_trans hself hle_x
    · rcases List.mem_cons.mp hy' with hya | hyt
      · subst hya
        exact le_trans hself hle_a
      · exact ih _ _ (List.mem_cons_of_mem _ hyt)

/-- Python `min(key=...)` keeps the FIRST minimum: every element strictly
before the winner has a strictly larger key. -/
theorem pyMin_first {α β : Type} [LinearOrder β] (key : α → β) (x : α) (xs : List α) :
    ∃ l1 l2, x :: xs = l1 ++ pyMin key x xs :: l2 ∧
      ∀ y ∈ l1, key (pyMin key x xs) < key y := by
  induction xs generalizing x with
  | nil => exact ⟨[], [], rfl, by simp⟩
  | cons a t ih =>
    have hstep : pyMin key x (a :: t) = pyMin key (if key a < key x then a else x) t := rfl
    by_cases h : key a < key x
    · rw [if_pos h] at hstep
      obtain ⟨l1, l2, hdec, hlt⟩ := ih a
      refine ⟨x :: l1, l2, ?_, ?_⟩
      · rw [hstep, List.cons_append, ← hdec]
      · intro y hy
        rcases List.mem_cons.mp hy with hyx | hy'
        · subst hyx
          rw [hstep]
          exact lt_of_le_of_lt (pyMin_le key a t a (List.mem_cons_self _ _)) h
        · rw [hstep]
          exact hlt y hy'
    · rw [if_neg h] at hstep
      obtain ⟨l1, l2, hdec, hlt⟩ := ih x
      cases l1 with
      | nil =>
        simp only [List.nil_append] at hdec
        have hx : pyMin key x t = x := (List.cons.inj hdec.symm).1
        refine ⟨[], a :: t, ?_, by simp⟩
        rw [hstep, hx]
        simp
      | cons z l1' =>
        simp only [List.cons_append] at hdec
        obtain ⟨hz, ht⟩ := List.cons.inj hdec
        refine ⟨x :: a :: l1', l2, ?_, ?_⟩
        · rw [hstep, List.cons_append, List.cons_append, ← ht]
        · intro y hy
          have hltx : key (pyMin key x t) < key x := by
            apply hlt
            rw [← hz]
            exact List.mem_cons_self _ _
          rcases List.mem_cons.mp hy with hyx | hy' 
          · subst hyx
            rw [hstep]
            exact hltx
          · rcases List.mem_cons.mp hy' with hya | hyt
            · subst hya
              rw [hstep]
              exact lt_of_lt_of_le hltx (le_of_not_lt h)
            · rw [hstep]
              exact hlt y (List.mem_cons_of_mem _ hyt)

/-! ## Claims -/

/-- **C2, counterexample.** The claim says four round-robin calls on the
fresh pool `[A, B, C]` return `A, B, C, A`; in fact the index is advanced
BEFORE indexing, so the very first call already returns `B`. -/
theorem c2_counterexample :
    ((poolABC .round_robin).get_proxy 10 0 none).map (fun r => r.1.2) =
      .ok "B" ∧
    (getProxySeq 10 0 none 4 (poolABC .round_robin)).map (fun r => r.1) ≠
      .ok ["A", "B", "C", "A"] := by decide

/-- **C2** (amended): with pool `[A, B, C]`, all eligible, strategy
RoundRobin, index initially 0, four sequential `getProxy()` calls return
identifiers in the cyclic order `B, C, A, B` (the counter is incremented
before selection, so the cycle starts at the second entry). -/
theorem c2_round_robin_cycle :
    (getProxySeq 10 0 none 4 (poolABC .round_robin)).map (fun r => r.1) =
      .ok ["B", "C", "A", "B"] := by decide

/-- **C6.** A ban reported at time 0 sets `rest_until = 0 + 300`; the entry
is ineligible at time 100 and eligible again at time 301. -/
theorem c6_ban_rest_window :
    (lookup mC6.proxies "A").map (fun d => d.stats.rest_until) = some 300 ∧
    (lookup mC6.proxies "A").map (fun d => isEligibleData d 100) = some false ∧
    (lookup mC6.proxies "A").map (fun d => isEligibleData d 301) = some true := by
  decide

/-- **C4, counterexample.** Reporting an unknown identifier does NOT surface
any error: both report calls return with the pool bit-for-bit unchanged
(the embedding's report operations have no error outcome at all, mirroring
the source's silent `if proxy_url in self.proxies` guard). -/
theorem c4_counterexample :
    (poolABC .random).report_success "nope" 5 = poolABC .random ∧
    (poolABC .random).report_failure "nope" true 5 = poolABC .random := by decide

/-- **C4** (amended): for every identifier not present in the pool,
`reportSuccess` and `reportFailure` are silently ignored: no error is
raised and every entry's state is left unchanged (the whole manager is
returned untouched). -/
theorem c4_unknown_report_ignored {m : ProxyManager} {url : String}
    (now : ℤ) (b : Bool) (h : lookup m.proxies url = none) :
    m.report_success url now = m ∧ m.report_failure url b now = m := by
  have hc : containsKey m.proxies url = false := by simp [containsKey, h]
  constructor
  · unfold ProxyManager.report_success
    rw [if_neg (by simp [hc])]
  · unfold ProxyManager.report_failure
    rw [if_neg (by simp [hc])]

/-- Witness for `c4_unknown_report_ignored` at the pool `[A, B, C]` and the
unknown identifier `"nope"`. -/
theorem c4_witness :
    lookup (poolABC .random).proxies "nope" = none ∧
    ((poolABC .random).report_success "nope" 5 = poolABC .random ∧
     (poolABC .random).report_failure "nope" true 5 = poolABC .random) :=
  ⟨by decide, c4_unknown_report_ignored 5 true (by decide)⟩

/-- **C9, counterexample.** After `configure_proxy("A", rest_time=10)` at
time 0, a ban reported at time 50 sets `rest_until = 350 = 50 + 300`, not
`60 = 50 + 10`: the configured value is not used as the ban rest
duration. -/
theorem c9_counterexample :
    (lookup (((poolABC .random).configure_proxy "A" none none (some 10)
        0).report_failure "A" true 50).proxies "A").map
      (fun d => d.stats.rest_until) = some 350 ∧
    (350 : ℤ) ≠ 50 + 10 := by decide

/-- **C9** (amended): `configure(rest_time=d)` immediately sets the entry's
`rest_until` to `now + d` — a one-off rest window — while every ban report
sets `rest_until` to the report time plus the fixed 300-second duration,
regardless of configuration; the ban rest duration itself is not
configurable. -/
theorem c9_rest_time_semantics (m : ProxyManager) (url : String)
    (data : ProxyData) (d now now' : ℤ)
    (h : lookup m.proxies url = some data) :
    (lookup (m.configure_proxy url none none (some d) now).proxies url).map
      (fun x => x.stats.rest_until) = some (now + d) ∧
    (lookup (m.report_failure url true now').proxies url).map
      (fun x => x.stats.rest_until) = some (now' + 300) := by
  constructor
  · unfold ProxyManager.configure_proxy
    rw [if_pos (containsKey_eq_true_of_lookup h)]
    simp [lookup_updateProxy_self, h]
  · rw [report_failure_true_lookup_self now' h]
    rfl

/-- Witness for `c9_rest_time_semantics` on the pool `[A, B, C]`. -/
theorem c9_witness :
    lookup (poolABC .random).proxies "A" =
      some ⟨[("http", "A")], "active", ⟨0, 0, 0, 0, 0, 0, []⟩⟩ ∧
    ((lookup ((poolABC .random).configure_proxy "A" none none (some 10)
        0).proxies "A").map (fun x => x.stats.rest_until) = some (0 + 10) ∧
     (lookup ((poolABC .random).report_failure "A" true 50).proxies "A").map
       (fun x => x.stats.rest_until) = some (50 + 300)) :=
  ⟨by decide, c9_rest_time_semantics (poolABC .random) "A"
    ⟨[("http", "A")], "active", ⟨0, 0, 0, 0, 0, 0, []⟩⟩ 10 0 50 (by decide)⟩

/-- **C1, counterexample.** A successful `get_proxy` at time 5 returns
entry `A` yet leaves `A`'s `last_used` at its initial 0: selection does not
update the timestamp. -/
theorem c1_counterexample :
    (poolABC .random).get_proxy 5 0 none =
      .ok (([("http", "A")], "A"), poolABC .random) ∧
    (lookup (poolABC .random).proxies "A").map (fun d => d.stats.last_used) =
      some 0 ∧
    (0 : ℤ) ≠ 5 := by decide

/-- **C1** (amended): `get_proxy` never updates `last_used` (nor any other
entry field — the proxies table of the returned manager is exactly the
caller's); `last_used` is set to the report time by `report_success` and
`report_failure` instead. -/
theorem c1_last_used_on_report_only (m m' : ProxyManager) (r : ProxyResult)
    (now now' : ℤ) (pick : Nat) (domain : Option String) (url : String)
    (data : ProxyData)
    (hok : m.get_proxy now pick domain = .ok (r, m'))
    (hurl : lookup m.proxies url = some data) :
    m'.proxies = m.proxies ∧
    (lookup (m.report_success url now').proxies url).map
      (fun x => x.stats.last_used) = some now' ∧
    (lookup (m.report_failure url true now').proxies url).map
      (fun x => x.stats.last_used) = some now' := by
  refine ⟨get_proxy_frame hok, ?_, ?_⟩
  · rw [report_success_lookup_self now' hurl]
    rfl
  · rw [report_failure_true_lookup_self now' hurl]
    rfl

/-- Witness for `c1_last_used_on_report_only` on the pool `[A, B, C]`. -/
theorem c1_witness :
    (poolABC .random).get_proxy 5 0 none =
      .ok (([("http", "A")], "A"), poolABC .random) ∧
    lookup (poolABC .random).proxies "A" =
      some ⟨[("http", "A")], "active", ⟨0, 0, 0, 0, 0, 0, []⟩⟩ ∧
    ((poolABC .random).proxies = (poolABC .random).proxies ∧
     (lookup ((poolABC .random).report_success "A" 7).proxies "A").map
       (fun x => x.stats.last_used) = some 7 ∧
     (lookup ((poolABC .random).report_failure "A" true 7).proxies "A").map
       (fun x => x.stats.last_used) = some 7) :=
  ⟨by decide, by decide,
   c1_last_used_on_report_only (poolABC .random) (poolABC .random)
     ([("http", "A")], "A") 5 7 0 none "A"
     ⟨[("http", "A")], "active", ⟨0, 0, 0, 0, 0, 0, []⟩⟩
     (by decide) (by decide)⟩

/-- **C8.** Repeated non-ban failure reports on `B` (at arbitrary clock
readings) never change `B`'s `rest_until` or lifecycle state; of the
counters only `failure_count` grows, by exactly one per call; every other
entry is untouched. -/
theorem c8_nonban_failure_frame (m : ProxyManager) (url : String)
    (data : ProxyData) (ts : List ℤ)
    (h : lookup m.proxies url = some data) :
    (∃ data', lookup (reportFailures m url ts).proxies url = some data' ∧
      data'.state = data.state ∧
      data'.stats.rest_until = data.stats.rest_until ∧
      data'.stats.failure_count = data.stats.failure_count + ts.length ∧
      data'.stats.success_count = data.stats.success_count ∧
      data'.stats.ban_count = data.stats.ban_count) ∧
    ∀ url', url' ≠ url →
      lookup (reportFailures m url ts).proxies url' = lookup m.proxies url' := by
  induction ts generalizing m data with
  | nil =>
    exact ⟨⟨data, h, rfl, rfl, by simp, rfl, rfl⟩, fun url' _ => rfl⟩
  | cons t ts ih =>
    have hstep := report_failure_false_lookup_self t h
    have hrw : reportFailures m url (t :: ts) =
        reportFailures (m.report_failure url false t) url ts := rfl
    obtain ⟨⟨data', hl, hs, hr, hf, hsc, hb⟩, hframe⟩ := ih _ _ hstep
    rw [hrw]
    refine ⟨⟨data', hl, ?_, ?_, ?_, ?_, ?_⟩, ?_⟩
    · simpa using hs
    · simpa using hr
    · simp only [List.length_cons]
      simp at hf
      omega
    · simpa using hsc
    · simpa using hb
    · intro url' hne
      rw [hframe url' hne, report_failure_lookup_ne false t hne]

/-- Witness for `c8_nonban_failure_frame`: ten non-ban failure reports on
`B` in the pool `[A, B, C]`. -/
theorem c8_witness :
    lookup (poolABC .random).proxies "B" = some (entry1 "B") ∧
    ((∃ data', lookup (reportFailures (poolABC .random) "B"
          [1, 2, 3, 4, 5, 6, 7, 8, 9, 10]).proxies "B" = some data' ∧
        data'.state = (entry1 "B").state ∧
        data'.stats.rest_until = (entry1 "B").stats.rest_until ∧
        data'.stats.failure_count = (entry1 "B").stats.failure_count +
          ([1, 2, 3, 4, 5, 6, 7, 8, 9, 10] : List ℤ).length ∧
        data'.stats.success_count = (entry1 "B").stats.success_count ∧
        data'.stats.ban_count = (entry1 "B").stats.ban_count) ∧
      ∀ url', url' ≠ "B" →
        lookup (reportFailures (poolABC .random) "B"
          [1, 2, 3, 4, 5, 6, 7, 8, 9, 10]).proxies url' =
        lookup (poolABC .random).proxies url') :=
  ⟨by decide, c8_nonban_failure_frame (poolABC .random) "B" (entry1 "B")
    [1, 2, 3, 4, 5, 6, 7, 8, 9, 10] (by decide)⟩

theorem get_random_proxy_ok_mem {m : ProxyManager} {now : ℤ} {pick : Nat}
    {r : ProxyResult} (h : m.get_random_proxy now pick = .ok r) :
    r.2 ∈ (activeProxies m now).map (fun p => p.1) := by
  unfold ProxyManager.get_random_proxy at h
  cases hA : activeProxies m now <;> simp only [hA] at h
  · simp at h
  · rename_i x xs
    simp only [Except.ok.injEq] at h
    subst h
    have hmem : pychoice x xs pick ∈ x :: xs := List.get_mem _ _ _
    exact List.mem_map.mpr ⟨_, hmem, rfl⟩

/-- **C3, counterexample.** Domain `"d"` is stuck to `A`; `A` is inside its
rest window at time 100 (ineligible) while `B` is the only eligible entry;
yet `get_proxy` returns `A` and leaves the sticky map untouched, because
the source checks only `state == 'active'`, never the rest window. -/
theorem c3_counterexample :
    mC3.strategy = .sticky_session ∧
    lookup mC3.domain_sticky_proxies "d" = some "A" ∧
    (lookup mC3.proxies "A").map (fun d => isEligibleData d 100) =
      some false ∧
    (activeProxies mC3 100).map (fun p => p.1) = ["B"] ∧
    mC3.get_proxy 100 0 (some "d") = .ok (([("http", "A")], "A"), mC3) := by
  decide

/-- **C3** (amended): under StickySession, a domain mapped to an entry
whose lifecycle state is `"active"` gets that entry back — even while the
entry is inside its rest window — and nothing is rewritten; only when the
domain is unmapped (the mapping is created lazily) does the pool pick via
Random from the eligible set and write the mapping to the picked
identifier. -/
theorem c3_sticky_ignores_rest_window (m : ProxyManager) (now : ℤ)
    (pick : Nat) (d : String) (hs : m.strategy = .sticky_session)
    (hd : d ≠ "") :
    (∀ url data, lookup m.domain_sticky_proxies d = some url →
      lookup m.proxies url = some data → data.state = "active" →
      m.get_proxy now pick (some d) = .ok ((data.proxy_dict, url), m)) ∧
    (lookup m.domain_sticky_proxies d = none →
      ∀ r m', m.get_proxy now pick (some d) = .ok (r, m') →
        r.2 ∈ (activeProxies m now).map (fun p => p.1) ∧
        lookup m'.domain_sticky_proxies d = some r.2) := by
  have ht : truthy (some d) = true := by simp [truthy, hd]
  have hgp : m.get_proxy now pick (some d) = m.get_sticky_proxy now pick d := by
    simp [ProxyManager.get_proxy, hs, ht]
  constructor
  · intro url data hmap hdata hactive
    rw [hgp]
    unfold ProxyManager.get_sticky_proxy
    simp [hmap, hdata, hactive]
  · intro hnone r m' hok
    rw [hgp] at hok
    unfold ProxyManager.get_sticky_proxy at hok
    simp only [hnone] at hok
    cases hr : m.get_random_proxy now pick <;>
      simp only [hr, Except.map] at hok
    · exact absurd hok (by simp)
    · rename_i v
      simp only [Except.ok.injEq, Prod.mk.injEq] at hok
      obtain ⟨rfl, rfl⟩ := hok
      exact ⟨get_random_proxy_ok_mem hr,
        by simp [lookup_dictInsert_self]⟩

/-- Witness for `c3_sticky_ignores_rest_window` on the fixture `mC3`. -/
theorem c3_witness :
    mC3.strategy = .sticky_session ∧ ("d" : String) ≠ "" ∧
    mC3.get_proxy 100 0 (some "d") = .ok (([("http", "A")], "A"), mC3) :=
  ⟨by decide, by decide,
   (c3_sticky_ignores_rest_window mC3 100 0 "d" (by decide) (by decide)).1
     "A" ⟨[("http", "A")], "active", ⟨0, 1, 1, 0, 300, 0, []⟩⟩
     (by decide) (by decide) (by decide)⟩

/-- **C5, counterexample.** At time 100 the eligible set of `mC5` is empty
(its only proxy is resting until 300), yet under StickySession with the
mapped domain `"d"` the call succeeds, returning the resting proxy instead
of raising. -/
theorem c5_counterexample :
    activeProxies mC5 100 = [] ∧
    mC5.strategy = .sticky_session ∧
    mC5.get_proxy 100 0 (some "d") = .ok (([("http", "A")], "A"), mC5) := by
  decide

/-- **C5** (amended): whenever the eligible set is empty, `get_proxy`
raises synchronously (no retry, no waiting) under Random, RoundRobin,
PercentageActive, RestReady and CustomRules (the latter after its fallback
over the eligible set also finds nothing) — and under StickySession too,
UNLESS the requested domain is already mapped to an entry whose lifecycle
state is `"active"`, in which case that entry is returned despite the empty
eligible set. -/
theorem c5_empty_eligible_error (m : ProxyManager) (now : ℤ) (pick : Nat)
    (domain : Option String) (hE : activeProxies m now = [])
    (hns : m.strategy = .sticky_session → truthy domain = true →
      stickyActiveHit m (domain.getD "") = false) :
    ∃ e, m.get_proxy now pick domain = .error e := by
  have hrand : m.get_random_proxy now pick = .error "No active proxies available" := by
    unfold ProxyManager.get_random_proxy
    rw [hE]
  cases hs : m.strategy
  case random =>
    refine ⟨"No active proxies available", ?_⟩
    simp [ProxyManager.get_proxy, hs, hrand, Except.map]
  case round_robin =>
    refine ⟨"No active proxies available", ?_⟩
    simp only [ProxyManager.get_proxy, hs]
    unfold ProxyManager.get_round_robin_proxy
    rw [hE]
  case percentage_active =>
    refine ⟨"No available proxies", ?_⟩
    simp only [ProxyManager.get_proxy, hs]
    unfold ProxyManager.get_percentage_based_proxy
    rw [hE]
    rfl
  case rest_ready =>
    refine ⟨"No rested proxies available", ?_⟩
    simp only [ProxyManager.get_proxy, hs]
    unfold ProxyManager.get_rested_proxy
    rw [hE]
    rfl
  case sticky_session =>
    by_cases ht : truthy domain = true
    · have hhit := hns hs ht
      simp only [ProxyManager.get_proxy, hs, if_pos ht]
      unfold ProxyManager.get_sticky_proxy
      unfold stickyActiveHit at hhit
      cases hmap : lookup m.domain_sticky_proxies (domain.getD "") <;>
        simp only [hmap] at hhit ⊢
      · refine ⟨"No active proxies available", ?_⟩
        simp [hrand, Except.map]
      · rename_i url
        cases hdata : lookup m.proxies url <;> simp only [hdata] at hhit ⊢
        · exact ⟨"KeyError", rfl⟩
        · rename_i data
          rw [if_neg (by simp [hhit])]
          refine ⟨"No active proxies available", ?_⟩
          simp [hrand, Except.map]
    · simp only [ProxyManager.get_proxy, hs, if_neg ht]
      refine ⟨"No active proxies available", ?_⟩
      simp [hrand, Except.map]
  case custom_rules =>
    by_cases ht : truthy domain = true
    · simp only [ProxyManager.get_proxy, hs, if_pos ht]
      unfold ProxyManager.get_custom_rule_proxy
      have hmatch : m.proxies.filter (fun p =>
          p.2.state == "active" &&
          (lookup p.2.stats.domain_rules (domain.getD "")).getD true &&
          decide (p.2.stats.rest_until ≤ now)) = [] := by
        rw [List.filter_eq_nil_iff]
        intro p hp
        have hinel := List.filter_eq_nil_iff.mp hE p hp
        simp only [isEligibleData, Bool.and_eq_true, not_and] at hinel
        simp only [Bool.and_eq_true, not_and]
        intro hsr
        exact hinel hsr.1
      rw [hmatch]
      refine ⟨"No active proxies available", ?_⟩
      simp [hrand, Except.map]
    · simp only [ProxyManager.get_proxy, hs, if_neg ht]
      refine ⟨"No active proxies available", ?_⟩
      simp [hrand, Except.map]

/-- Witness for `c5_empty_eligible_error`: the pool `[A]` with `A` resting
until 300, queried at time 100 under the Random strategy. -/
theorem c5_witness :
    activeProxies ((ProxyManager.init [spec1 "A"] .random).report_failure
      "A" true 0) 100 = [] ∧
    (((ProxyManager.init [spec1 "A"] .random).report_failure
        "A" true 0).strategy = .sticky_session →
      truthy (none : Option String) = true →
      stickyActiveHit ((ProxyManager.init [spec1 "A"] .random).report_failure
        "A" true 0) ((none : Option String).getD "") = false) ∧
    ∃ e, ((ProxyManager.init [spec1 "A"] .random).report_failure
      "A" true 0).get_proxy 100 0 none = .error e := by
  refine ⟨?_, ?_, ?_⟩
  · decide
  · intro h
    exact absurd h (by decide)
  · exact c5_empty_eligible_error _ 100 0 none (by decide)
      (fun h => absurd h (by decide))

theorem mem_dictInsert {α : Type} {ps : List (String × α)} {k : String}
    {v : α} {q : String × α} (h : q ∈ dictInsert ps k v) :
    q = (k, v) ∨ q ∈ ps := by
  unfold dictInsert at h
  split at h
  · obtain ⟨p, hp, hq⟩ := List.mem_map.mp h
    split at hq
    · exact Or.inl hq.symm
    · exact Or.inr (hq ▸ hp)
  · rcases List.mem_append.mp h with h1 | h1
    · exact Or.inr h1
    · simp only [List.mem_singleton] at h1
      exact Or.inl h1

theorem allActive_init_aux (plist : List (List (String × String)))
    (acc : List (String × ProxyData))
    (hacc : ∀ p ∈ acc, p.2.state = "active") :
    ∀ p ∈ plist.foldl
      (fun acc proxy =>
        dictInsert acc ((lookup proxy "http").getD "")
          { proxy_dict := proxy, state := "active", stats := {} })
      acc, p.2.state = "active" := by
  induction plist generalizing acc with
  | nil => exact hacc
  | cons hd tl ih =>
    intro p hp
    refine ih _ ?_ p hp
    intro q hq
    rcases mem_dictInsert hq with h1 | h1
    · rw [h1]
    · exact hacc q h1

theorem allActive_updateProxy {ps : List (String × ProxyData)} {k : String}
    {f : ProxyData → ProxyData} (hf : ∀ d, (f d).state = d.state)
    (h : ∀ p ∈ ps, p.2.state = "active") :
    ∀ p ∈ updateProxy ps k f, p.2.state = "active" := by
  intro p hp
  obtain ⟨q, hq, hpq⟩ := List.mem_map.mp hp
  split at hpq
  · rw [← hpq]
    show (f q.2).state = "active"
    rw [hf q.2]
    exact h q hq
  · exact hpq ▸ h q hq

theorem allActive_mk_update (ps : List (String × ProxyData)) (k : String)
    (f : ProxyData → ProxyData) (str : RotationStrategy) (cur : Nat)
    (stick : List (String × String)) (hf : ∀ d, (f d).state = d.state)
    (h : ∀ p ∈ ps, p.2.state = "active") :
    allActive ⟨updateProxy ps k f, str, cur, stick⟩ :=
  fun p hp => allActive_updateProxy hf h p hp

/-- **C10.** The lifecycle state is the string `"active"` for every entry
at construction and is preserved by every public operation, so the Banned
state is unreachable and — on an all-active pool — ineligibility is exactly
an unexpired rest window. -/
theorem c10_state_always_active (plist : List (List (String × String)))
    (strat : RotationStrategy) (m m' : ProxyManager) (r : ProxyResult)
    (now now' : ℤ) (pick : Nat) (domain : Option String) (url : String)
    (b : Bool) (ap : Option ℚ) (dr : Option (List (String × Bool)))
    (rt : Option ℤ) (hm : allActive m) :
    allActive (ProxyManager.init plist strat) ∧
    (m.get_proxy now pick domain = .ok (r, m') → allActive m') ∧
    allActive (m.report_success url now') ∧
    allActive (m.report_failure url b now') ∧
    allActive (m.configure_proxy url ap dr rt now') ∧
    allActive (m.set_strategy strat) ∧
    ∀ p ∈ m.proxies, (isEligibleData p.2 now = true ↔ p.2.stats.rest_until ≤ now) := by
  refine ⟨?_, ?_, ?_, ?_, ?_, ?_, ?_⟩
  · exact allActive_init_aux plist [] (by simp)
  · intro hok p hp
    rw [get_proxy_frame hok] at hp
    exact hm p hp
  · unfold ProxyManager.report_success
    split
    · dsimp only
      refine allActive_mk_update _ _ _ _ _ _ (fun d => ?_) hm
      rfl
    · exact hm
  · unfold ProxyManager.report_failure
    split
    · dsimp only
      refine allActive_mk_update _ _ _ _ _ _ (fun d => ?_) hm
      rfl
    · exact hm
  · unfold ProxyManager.configure_proxy
    split
    · cases ap <;> cases dr <;> cases rt <;> dsimp only <;>
        first
        | exact hm
        | (refine allActive_mk_update _ _ _ _ _ _ (fun d => ?_) hm; rfl)
        | (refine allActive_mk_update _ _ _ _ _ _ (fun d => ?_)
             (allActive_updateProxy (fun d => ?_) hm) <;> rfl)
        | (refine allActive_mk_update _ _ _ _ _ _ (fun d => ?_)
             (allActive_updateProxy (fun d => ?_)
               (allActive_updateProxy (fun d => ?_) hm)) <;> rfl)
    · exact hm
  · exact hm
  · intro p hp
    simp [isEligibleData, hm p hp]

/-- Witness for `c10_state_always_active` on the pool `[A, B, C]`. -/
theorem c10_witness :
    allActive (poolABC .random) ∧
    (allActive (ProxyManager.init [spec1 "A"] .round_robin) ∧
     ((poolABC .random).get_proxy 5 0 none =
        .ok (([("http", "A")], "A"), poolABC .random) →
      allActive (poolABC .random)) ∧
     allActive ((poolABC .random).report_success "A" 7) ∧
     allActive ((poolABC .random).report_failure "A" true 7) ∧
     allActive ((poolABC .random).configure_proxy "A" (some 0)
       (some [("x.com", false)]) (some 10) 7) ∧
     allActive ((poolABC .random).set_strategy .round_robin) ∧
     ∀ p ∈ (poolABC .random).proxies,
       (isEligibleData p.2 5 = true ↔ p.2.stats.rest_until ≤ 5)) :=
  ⟨by unfold allActive; decide,
   c10_state_always_active [spec1 "A"] .round_robin (poolABC .random)
     (poolABC .random) ([("http", "A")], "A") 5 7 0 none "A" true
     (some 0) (some [("x.com", false)]) (some 10)
     (by unfold allActive; decide)⟩

/-- **C7, counterexample.** In `mC7` the two eligible entries (insertion
order `B` then `A`) have equal selection keys, a tie; the claim's
tie-break demands the lowest identifier `A`, but the code's `min` keeps the
first entry in pool order and returns `B`. -/
theorem c7_counterexample :
    (activeProxies mC7 10).map (fun p => p.1) = ["B", "A"] ∧
    ((activeProxies mC7 10).map (fun p => p.2.stats.total_requests)).sum = 2 ∧
    pctKey 2 ("A", ⟨spec1 "A", "active", ⟨1, 0, 0, 0, 0, 0, []⟩⟩) =
      pctKey 2 ("B", ⟨spec1 "B", "active", ⟨1, 0, 0, 0, 0, 0, []⟩⟩) ∧
    ("A" : String) < "B" ∧
    (mC7.get_proxy 10 0 none).map (fun r => r.1.2) = .ok "B" := by
  refine ⟨by decide, by decide, rfl, ?_, ?_⟩
  · rw [String.lt_iff_toList_lt]
    decide
  · have hs : mC7.strategy = .percentage_active := by decide
    have hact : activeProxies mC7 10 =
        [("B", ⟨spec1 "B", "active", ⟨1, 0, 0, 0, 0, 0, []⟩⟩),
         ("A", ⟨spec1 "A", "active", ⟨1, 0, 0, 0, 0, 0, []⟩⟩)] := by decide
    have hkey : ¬ (pctKey 2 ("A", ⟨spec1 "A", "active", ⟨1, 0, 0, 0, 0, 0, []⟩⟩) <
        pctKey 2 ("B", ⟨spec1 "B", "active", ⟨1, 0, 0, 0, 0, 0, []⟩⟩)) := by
      norm_num [pctKey, ProxyStats.total_requests]
    simp only [ProxyManager.get_proxy, hs]
    unfold ProxyManager.get_percentage_based_proxy
    rw [hact]
    simp only [pyMin, List.foldl, List.map_cons, List.map_nil, List.sum_cons,
      List.sum_nil, ProxyStats.total_requests]
    rw [if_neg (by norm_num), if_neg (by simpa [spec1] using hkey)]
    rfl

/-- **C7** (amended): under PercentageActive on a non-empty eligible set,
a zero total request count degrades the call to Random over the eligible
set; otherwise the chosen entry minimizes `observedShare -
targetActiveShare`, with ties broken by the EARLIEST position in the
pool's insertion order (Python's `min` keeps the first minimum), not by
lowest identifier. -/
theorem c7_percentage_selection (m : ProxyManager) (now : ℤ) (pick : Nat)
    (domain : Option String) (x : String × ProxyData)
    (xs : List (String × ProxyData)) (hs : m.strategy = .percentage_active)
    (hav : activeProxies m now = x :: xs) :
    (((x :: xs).map (fun p => p.2.stats.total_requests)).sum = 0 →
      m.get_proxy now pick domain =
        (m.get_random_proxy now pick).map (fun r => (r, m))) ∧
    (((x :: xs).map (fun p => p.2.stats.total_requests)).sum ≠ 0 →
      ∃ best l1 l2,
        m.get_proxy now pick domain = .ok ((best.2.proxy_dict, best.1), m) ∧
        x :: xs = l1 ++ best :: l2 ∧
        (∀ y ∈ x :: xs,
          pctKey (((x :: xs).map (fun p => p.2.stats.total_requests)).sum) best ≤
          pctKey (((x :: xs).map (fun p => p.2.stats.total_requests)).sum) y) ∧
        (∀ y ∈ l1,
          pctKey (((x :: xs).map (fun p => p.2.stats.total_requests)).sum) best <
          pctKey (((x :: xs).map (fun p => p.2.stats.total_requests)).sum) y)) := by
  constructor
  · intro h0
    simp only [ProxyManager.get_proxy, hs]
    unfold ProxyManager.get_percentage_based_proxy
    rw [hav]
    simp only [List.map_cons, List.sum_cons] at h0
    have h1 : x.2.stats.total_requests = 0 := by omega
    have h2 : ((xs.map (fun p => p.2.stats.total_requests)).sum) = 0 := by omega
    simp [h1, h2]
  · intro h0
    refine ⟨pyMin (pctKey (((x :: xs).map
      (fun p => p.2.stats.total_requests)).sum)) x xs, ?_⟩
    obtain ⟨l1, l2, hdec, hlt⟩ := pyMin_first (pctKey (((x :: xs).map
      (fun p => p.2.stats.total_requests)).sum)) x xs
    refine ⟨l1, l2, ?_, hdec, pyMin_le _ _ _, hlt⟩
    simp only [ProxyManager.get_proxy, hs]
    unfold ProxyManager.get_percentage_based_proxy
    rw [hav]
    simp only [if_neg h0, Except.map]

/-- Witness for `c7_percentage_selection` on the fixture `mC7` (eligible
entries `B` then `A` in insertion order, total request count 2). -/
theorem c7_witness :
    mC7.strategy = .percentage_active ∧
    activeProxies mC7 10 = ("B", entryB1) :: [("A", entryA1)] ∧
    ((((("B", entryB1) :: [("A", entryA1)]).map
        (fun p => p.2.stats.total_requests)).sum = 0 →
      mC7.get_proxy 10 0 none =
        (mC7.get_random_proxy 10 0).map (fun r => (r, mC7))) ∧
     (((("B", entryB1) :: [("A", entryA1)]).map
        (fun p => p.2.stats.total_requests)).sum ≠ 0 →
      ∃ best l1 l2,
        mC7.get_proxy 10 0 none = .ok ((best.2.proxy_dict, best.1), mC7) ∧
        ("B", entryB1) :: [("A", entryA1)] = l1 ++ best :: l2 ∧
        (∀ y ∈ ("B", entryB1) :: [("A", entryA1)],
          pctKey (((("B", entryB1) :: [("A", entryA1)]).map
            (fun p => p.2.stats.total_requests)).sum) best ≤
          pctKey (((("B", entryB1) :: [("A", entryA1)]).map
            (fun p => p.2.stats.total_requests)).sum) y) ∧
        (∀ y ∈ l1,
          pctKey (((("B", entryB1) :: [("A", entryA1)]).map
            (fun p => p.2.stats.total_requests)).sum) best <
          pctKey (((("B", entryB1) :: [("A", entryA1)]).map
            (fun p => p.2.stats.total_requests)).sum) y))) :=
  ⟨by decide, by decide,
   c7_percentage_selection mC7 10 0 none ("B", entryB1) [("A", entryA1)]
     (by decide) (by decide)⟩
